import Mathlib

/-!
Verification of the revng GenericGraph header (include/revng/ADT/GenericGraph.h).

The development shallowly embeds the three node architectures of the header:

* `MutableEdgeGraph` models a `GenericGraph` of `MutableEdgeNode`s.  Node
  identity (a C++ object address) is a `Nat`; each edge label lives in a heap
  cell addressed by an allocation id (`Nat`, the address returned by
  `std::make_unique`), so pointer identity of labels is equality of allocation
  ids.  `succ` maps each node to its `Successors` vector of `OwningEdge`s and
  `pred` maps each node to its `Predecessors` vector of `NonOwningEdge`s.
  `revng_assert`/`revng_abort` are modelled by `Except.error s` where `s` is
  the graph state observed at the moment of the abort, so an abort that
  happens before any mutation carries the pre-call state.  Label values are
  `Nat` (the model of an arbitrary user label type); this instantiates the
  labelled variant (`AreEdgesLabeled = true`); the unlabelled variant differs
  only by the absence of the `Label` fields.

* `BidirectionalGraph` models a `GenericGraph` of `BidirectionalNode`s, whose
  edge records are value copies on both endpoints.

`llvm::SmallVector` is modelled as `List` (growth strategy is untracked;
element order and contents are what the code observes).  The swap-with-last
then `pop_back` removal of `MutableEdgeNode` is `swapPop`, and the
order-preserving `erase` of `SmallVector` used by `ForwardNode` and
`BidirectionalNode` is `List.eraseIdx`.  Iterators are positions (`Nat`),
with the end iterator equal to the length of the vector.
-/

/-- An owning successor record of `MutableEdgeNode`:
`struct OwningEdge { NodeType *Neighbor; std::unique_ptr<LabelType> Label; }`.
`Label` is the allocation id of the heap cell the `unique_ptr` owns. -/
structure OwningEdge where
  Neighbor : Nat
  Label : Nat
deriving DecidableEq, Repr

/-- A non-owning predecessor record of `MutableEdgeNode`:
`struct NonOwningEdge { NodeType *Neighbor; LabelType *Label; }`.
`Label` is the allocation id the raw pointer refers to. -/
structure NonOwningEdge where
  Neighbor : Nat
  Label : Nat
deriving DecidableEq, Repr

/-- State of a `GenericGraph<MutableEdgeNode<...>>` together with the heap of
edge-label allocations.  `nodes` is the insertion-ordered list of node ids
owned by the container, `fresh` is the next unused label allocation id,
`nodeFresh` the next unused node id (addresses are never reused),
`parentSet` records which nodes had their parent back-reference set, and
`entry` is the `EntryNode` pointer (`none` = `nullptr`). -/
structure MutableEdgeGraph where
  nodes : List Nat
  succ : Nat → List OwningEdge
  pred : Nat → List NonOwningEdge
  heap : Nat → Nat
  fresh : Nat
  nodeFresh : Nat
  parentSet : Nat → Bool
  entry : Option Nat

/-- A freshly value-constructed graph: no nodes, no edges, entry `nullptr`. -/
def emptyMG : MutableEdgeGraph where
  nodes := []
  succ := fun _ => []
  pred := fun _ => []
  heap := fun _ => 0
  fresh := 0
  nodeFresh := 0
  parentSet := fun _ => false
  entry := none

namespace MutableEdgeGraph

/-- Number of successor records of `a` whose `Neighbor` is `b`. -/
def eCount (l : List OwningEdge) (b : Nat) : Nat :=
  List.countP (fun e => e.Neighbor == b) l

/-- Number of predecessor records whose `Neighbor` is `a`. -/
def vCount (l : List NonOwningEdge) (a : Nat) : Nat :=
  List.countP (fun e => e.Neighbor == a) l

/-- `bool hasSuccessor(S)`: `findSuccessorImpl(S) != Successors.end()`,
a linear scan comparing the stored `Neighbor` pointers against `&S`. -/
def hasSuccessor (g : MutableEdgeGraph) (a b : Nat) : Bool :=
  List.any (g.succ a) (fun e => e.Neighbor == b)

/-- `bool hasPredecessor(S)`: linear scan of the `Predecessors` vector. -/
def hasPredecessor (g : MutableEdgeGraph) (b a : Nat) : Bool :=
  List.any (g.pred b) (fun e => e.Neighbor == a)

/-- `size_t successorCount()`: `Successors.size()`. -/
def successorCount (g : MutableEdgeGraph) (a : Nat) : Nat :=
  (g.succ a).length

/-- `size_t predecessorCount()`: `Predecessors.size()`. -/
def predecessorCount (g : MutableEdgeGraph) (a : Nat) : Nat :=
  (g.pred a).length

/-- `bool hasSuccessors()`: `Successors.size() != 0`. -/
def hasSuccessors (g : MutableEdgeGraph) (a : Nat) : Bool :=
  (g.succ a).length != 0

/-- `bool hasPredecessors()`: `Predecessors.size() != 0`. -/
def hasPredecessors (g : MutableEdgeGraph) (a : Nat) : Bool :=
  (g.pred a).length != 0

/-- `addSuccessor(NewSuccessor, EL)`:
`revng_assert(!hasSuccessor(NewSuccessor))`, then `constructEdge` allocates
the label once (`std::make_unique`, modelled by writing `el` to heap cell
`g.fresh`) and builds the owning half `{&To, unique_ptr}` and the non-owning
half `{&From, Label.get()}`; the owning half is appended to this node's
`Successors` and the view half to the successor's `Predecessors`.  Returns
the `EdgeView` of the inserted record, modelled as the label allocation id. -/
def addSuccessor (g : MutableEdgeGraph) (a b : Nat) (el : Nat) :
    Except MutableEdgeGraph (MutableEdgeGraph × Nat) :=
  if hasSuccessor g a b then Except.error g
  else
    Except.ok
      ({ g with
          succ := Function.update g.succ a
            (g.succ a ++ [{ Neighbor := b, Label := g.fresh }]),
          pred := Function.update g.pred b
            (g.pred b ++ [{ Neighbor := a, Label := g.fresh }]),
          heap := Function.update g.heap g.fresh el,
          fresh := g.fresh + 1 }, g.fresh)

/-- Swap-with-last then `pop_back` removal used by `MutableEdgeNode`:
`std::swap(v[i], v.back()); v.pop_back();`. -/
def swapPop {α : Type} (l : List α) (i : Nat) : List α :=
  match l.getLast? with
  | none => []
  | some x => (l.set i x).dropLast

/-- `removeSuccessorImpl(InputIterator)` on node `n` with the iterator at
position `idx`.  Mirrors the source line by line: an empty `Successors`
vector returns `Successors.end()` immediately; then the successor's
`Predecessors` are searched for the mirrored half (early-returning if that
vector is empty), `revng_assert`ing that a mirrored record exists, and both
halves are removed by swap-with-last-and-pop.  Dereferencing an invalid
(end) iterator is undefined behaviour in the source and is modelled as an
abort. -/
def removeSuccessorImpl (g : MutableEdgeGraph) (n : Nat) (idx : Nat) :
    Except MutableEdgeGraph (MutableEdgeGraph × Nat) :=
  if (g.succ n).isEmpty then Except.ok (g, (g.succ n).length)
  else
    match (g.succ n)[idx]? with
    | none => Except.error g
    | some e =>
      if (g.pred e.Neighbor).isEmpty then Except.ok (g, idx)
      else
        let j := List.findIdx (fun v => v.Neighbor == n) (g.pred e.Neighbor)
        if j = (g.pred e.Neighbor).length then Except.error g
        else
          Except.ok
            ({ g with
                pred := Function.update g.pred e.Neighbor
                  (swapPop (g.pred e.Neighbor) j),
                succ := Function.update g.succ n
                  (swapPop (g.succ n) idx) }, idx)

/-- `removePredecessorImpl(InputIterator)` on node `n`, the exact mirror of
`removeSuccessorImpl`. -/
def removePredecessorImpl (g : MutableEdgeGraph) (n : Nat) (idx : Nat) :
    Except MutableEdgeGraph (MutableEdgeGraph × Nat) :=
  if (g.pred n).isEmpty then Except.ok (g, (g.pred n).length)
  else
    match (g.pred n)[idx]? with
    | none => Except.error g
    | some e =>
      if (g.succ e.Neighbor).isEmpty then Except.ok (g, idx)
      else
        let j := List.findIdx (fun v => v.Neighbor == n) (g.succ e.Neighbor)
        if j = (g.succ e.Neighbor).length then Except.error g
        else
          Except.ok
            ({ g with
                succ := Function.update g.succ e.Neighbor
                  (swapPop (g.succ e.Neighbor) j),
                pred := Function.update g.pred n
                  (swapPop (g.pred n) idx) }, idx)

/-- `removeSuccessor(DerivedType const &S)`: the by-value overload,
`removeSuccessorImpl(findSuccessorImpl(S))`. -/
def removeSuccessor (g : MutableEdgeGraph) (a b : Nat) :
    Except MutableEdgeGraph (MutableEdgeGraph × Nat) :=
  removeSuccessorImpl g a
    (List.findIdx (fun e => e.Neighbor == b) (g.succ a))

/-- `removePredecessor(DerivedType const &P)`: the by-value overload,
`removePredecessorImpl(findPredecessorImpl(P))`. -/
def removePredecessor (g : MutableEdgeGraph) (b a : Nat) :
    Except MutableEdgeGraph (MutableEdgeGraph × Nat) :=
  removePredecessorImpl g b
    (List.findIdx (fun e => e.Neighbor == a) (g.pred b))

/-- The successor half of `disconnect()`:
`for (auto It = Successors.begin(); It != Successors.end();)
   It = removeSuccessorImpl(It);`.
The returned iterator is always position 0, so each round removes the
front record.  The loop makes no progress (and hence never terminates) if
`removeSuccessorImpl` early-returns without removing, so the model runs on
fuel and reports fuel exhaustion as an abort; under the mirrored-half
invariant a fuel of `Successors.size()` always suffices. -/
def disconnectSuccLoop : Nat → MutableEdgeGraph → Nat →
    Except MutableEdgeGraph MutableEdgeGraph
  | fuel, g, n =>
    if (g.succ n).isEmpty then Except.ok g
    else
      match fuel with
      | 0 => Except.error g
      | Nat.succ f =>
        match removeSuccessorImpl g n 0 with
        | Except.error s => Except.error s
        | Except.ok (g2, _) => disconnectSuccLoop f g2 n

/-- The predecessor half of `disconnect()`, symmetric to
`disconnectSuccLoop`. -/
def disconnectPredLoop : Nat → MutableEdgeGraph → Nat →
    Except MutableEdgeGraph MutableEdgeGraph
  | fuel, g, n =>
    if (g.pred n).isEmpty then Except.ok g
    else
      match fuel with
      | 0 => Except.error g
      | Nat.succ f =>
        match removePredecessorImpl g n 0 with
        | Except.error s => Except.error s
        | Except.ok (g2, _) => disconnectPredLoop f g2 n

/-- `MutableEdgeNode &disconnect()`: drain `Successors`, then drain
`Predecessors`. -/
def disconnect (g : MutableEdgeGraph) (n : Nat) :
    Except MutableEdgeGraph MutableEdgeGraph :=
  match disconnectSuccLoop (g.succ n).length g n with
  | Except.error s => Except.error s
  | Except.ok g2 => disconnectPredLoop (g2.pred n).length g2 n

/-- `NodeT *addNode(Args &&...)`: the container constructs the node, takes
ownership (appends to `Nodes`), sets the parent back-reference, and returns
the address of the new node. -/
def addNode (g : MutableEdgeGraph) : MutableEdgeGraph × Nat :=
  ({ g with
      nodes := g.nodes ++ [g.nodeFresh],
      nodeFresh := g.nodeFresh + 1,
      parentSet := Function.update g.parentSet g.nodeFresh true },
   g.nodeFresh)

/-- `removeNode(Node const *NodePtr)`: finds the node (removal of a pointer
not owned by the container dereferences the end iterator, undefined
behaviour, modelled as an abort), runs `disconnect()` on it because the node
is a `MutableEdgeNode`, then erases its `unique_ptr` from `Nodes`. -/
def removeNode (g : MutableEdgeGraph) (n : Nat) :
    Except MutableEdgeGraph MutableEdgeGraph :=
  if g.nodes.contains n then
    match disconnect g n with
    | Except.error s => Except.error s
    | Except.ok g2 => Except.ok { g2 with nodes := g2.nodes.erase n }
  else Except.error g

/-- `NodeT *getEntryNode() const` of the `EntryNode` holder. -/
def getEntryNode (g : MutableEdgeGraph) : Option Nat :=
  g.entry

/-- `void setEntryNode(NodeT *EntryNode)` of the `EntryNode` holder. -/
def setEntryNode (g : MutableEdgeGraph) (p : Option Nat) : MutableEdgeGraph :=
  { g with entry := p }

/-- The mirrored-half invariant of the data model: for every ordered pair of
nodes the number of successor records `a -> b` equals the number of
predecessor records of `b` referencing `a` (every edge has exactly one
front half and one back half). -/
def WF (g : MutableEdgeGraph) : Prop :=
  ∀ a b : Nat, eCount (g.succ a) b = vCount (g.pred b) a

end MutableEdgeGraph

/-- An edge record of `ForwardNode`/`BidirectionalNode`:
`struct Edge : EdgeLabel { Node *Neighbor; }`, the label embedded by value. -/
structure BEdge where
  Neighbor : Nat
  Label : Nat
deriving DecidableEq, Repr

/-- State of a graph of `BidirectionalNode`s: each node has a `Successors`
vector (inherited from `ForwardNode`) and a `Predecessors` vector; labels
are value copies stored in the records themselves. -/
structure BidirectionalGraph where
  succ : Nat → List BEdge
  pred : Nat → List BEdge

/-- A `BidirectionalGraph` with no edges. -/
def emptyBG : BidirectionalGraph where
  succ := fun _ => []
  pred := fun _ => []

namespace BidirectionalGraph

/-- `BidirectionalNode::addSuccessor(NewSuccessor, EL)`:
`Base::addSuccessor(NewSuccessor, EL)` appends `{NewSuccessor, EL}` to this
node's `Successors`, then `NewSuccessor->Predecessors.emplace_back(this, EL)`
appends the mirrored record (value copy of the label). -/
def addSuccessor (g : BidirectionalGraph) (a b : Nat) (el : Nat) :
    BidirectionalGraph :=
  { g with
      succ := Function.update g.succ a
        (g.succ a ++ [{ Neighbor := b, Label := el }]),
      pred := Function.update g.pred b
        (g.pred b ++ [{ Neighbor := a, Label := el }]) }

/-- `BidirectionalNode::addPredecessor(NewPredecessor, EL)` invoked on node
`b`: first `Predecessors.emplace_back(NewPredecessor, EL)` appends directly
to `b`'s own `Predecessors`, then `NewPredecessor->addSuccessor(this, EL)`
runs the full derived `addSuccessor` of node `a`, which appends to `a`'s
`Successors` and appends the mirrored record to `b`'s `Predecessors` a
second time. -/
def addPredecessor (g : BidirectionalGraph) (b a : Nat) (el : Nat) :
    BidirectionalGraph :=
  let g1 : BidirectionalGraph :=
    { g with
        pred := Function.update g.pred b
          (g.pred b ++ [{ Neighbor := a, Label := el }]) }
  addSuccessor g1 a b el

/-- `ForwardNode::removeSuccessor(child_iterator It)` (inherited by
`BidirectionalNode`): `Successors.erase(It.getCurrent())`, a contiguous
order-preserving erase of the record at the iterator's position, touching
only this node's own `Successors` vector. -/
def removeSuccessor (g : BidirectionalGraph) (a : Nat) (i : Nat) :
    BidirectionalGraph :=
  { g with succ := Function.update g.succ a ((g.succ a).eraseIdx i) }

/-- `BidirectionalNode::removePredecessor(child_iterator It)`:
`Predecessors.erase(It.getCurrent())`, touching only this node's own
`Predecessors` vector. -/
def removePredecessor (g : BidirectionalGraph) (b : Nat) (i : Nat) :
    BidirectionalGraph :=
  { g with pred := Function.update g.pred b ((g.pred b).eraseIdx i) }

end BidirectionalGraph

/-- True when an edge operation returned normally (did not `revng_abort`). -/
def edgeOpOk (r : Except MutableEdgeGraph (MutableEdgeGraph × Nat)) : Bool :=
  match r with
  | Except.ok _ => true
  | Except.error _ => false

/-- The graph produced by a normally-returning edge operation (the fallback
is returned for an aborting run and is never reached in the scenarios). -/
def edgeOpGraph (r : Except MutableEdgeGraph (MutableEdgeGraph × Nat))
    (d : MutableEdgeGraph) : MutableEdgeGraph :=
  match r with
  | Except.ok (g, _) => g
  | Except.error _ => d

/-- True when a graph operation returned normally. -/
def graphOpOk (r : Except MutableEdgeGraph MutableEdgeGraph) : Bool :=
  match r with
  | Except.ok _ => true
  | Except.error _ => false

/-- The graph produced by a normally-returning graph operation. -/
def graphOpGraph (r : Except MutableEdgeGraph MutableEdgeGraph)
    (d : MutableEdgeGraph) : MutableEdgeGraph :=
  match r with
  | Except.ok g => g
  | Except.error _ => d

/-- A two-node graph `{0, 1}` with the single well-mirrored edge `0 -> 1`
(label allocation 0): the state reached from a fresh graph by two `addNode`
calls followed by `addSuccessor`. -/
def mgPair : MutableEdgeGraph :=
  { emptyMG with
      nodes := [0, 1]
      nodeFresh := 2
      fresh := 1
      succ := Function.update (fun _ => []) 0 [{ Neighbor := 1, Label := 0 }]
      pred := Function.update (fun _ => []) 1 [{ Neighbor := 0, Label := 0 }]
      parentSet := fun n => n == 0 || n == 1 }

/-- A broken two-node graph: node 0 holds a successor record for node 1,
but node 1's predecessor vector is empty (the mirrored half is missing). -/
def brokenEmptyHalf : MutableEdgeGraph :=
  { emptyMG with
      nodes := [0, 1]
      nodeFresh := 2
      fresh := 1
      succ := Function.update (fun _ => []) 0 [{ Neighbor := 1, Label := 0 }] }

/-- A broken graph: node 0 holds a successor record for node 1, and node 1's
predecessor vector is non-empty but only references node 5 (the mirrored
half referencing node 0 is missing). -/
def brokenStrayPred : MutableEdgeGraph :=
  { emptyMG with
      nodes := [0, 1, 5]
      nodeFresh := 6
      fresh := 2
      succ := Function.update (fun _ => []) 0 [{ Neighbor := 1, Label := 0 }]
      pred := Function.update (fun _ => []) 1 [{ Neighbor := 5, Label := 1 }] }

/-- A broken graph for the predecessor direction: node 1 holds a predecessor
record referencing node 0, node 0's successor vector is non-empty but only
references node 2 (no successor record for node 1). -/
def brokenStraySucc : MutableEdgeGraph :=
  { emptyMG with
      nodes := [0, 1, 2]
      nodeFresh := 3
      fresh := 2
      succ := Function.update (fun _ => []) 0 [{ Neighbor := 2, Label := 0 }]
      pred := Function.update (fun _ => []) 1 [{ Neighbor := 0, Label := 1 }] }

/-- The scenario graph of the spec: three nodes `{A, B, C} = {0, 1, 2}`
created by three `addNode` calls on a fresh graph. -/
def scenarioNodes : MutableEdgeGraph :=
  (MutableEdgeGraph.addNode
    (MutableEdgeGraph.addNode (MutableEdgeGraph.addNode emptyMG).1).1).1

/-- The scenario after `A.addSuccessor(B)`. -/
def scenarioAdd1 : Except MutableEdgeGraph (MutableEdgeGraph × Nat) :=
  MutableEdgeGraph.addSuccessor scenarioNodes 0 1 0

/-- The scenario after `A.addSuccessor(B); B.addSuccessor(C)`. -/
def scenarioAdd2 : Except MutableEdgeGraph (MutableEdgeGraph × Nat) :=
  MutableEdgeGraph.addSuccessor (edgeOpGraph scenarioAdd1 scenarioNodes) 1 2 0

/-- The scenario graph with both edges inserted. -/
def scenarioEdges : MutableEdgeGraph :=
  edgeOpGraph scenarioAdd2 scenarioNodes

/-- The scenario after `removeNode(B)`. -/
def scenarioRemove : Except MutableEdgeGraph MutableEdgeGraph :=
  MutableEdgeGraph.removeNode scenarioEdges 1

/-- The scenario graph after `removeNode(B)`. -/
def scenarioFinal : MutableEdgeGraph :=
  graphOpGraph scenarioRemove scenarioEdges

/-- The `BidirectionalGraph` with the single edge `0 -> 1` labelled 3,
as created by `addSuccessor`. -/
def bgPair : BidirectionalGraph :=
  BidirectionalGraph.addSuccessor emptyBG 0 1 3

/-- Splitting off the last element of a nonempty list splits its `countP`. -/
theorem countP_dropLast_getLast {α : Type} (p : α → Bool) (l : List α)
    (z : α) (h : l.getLast? = some z) :
    l.countP p = l.dropLast.countP p + (if p z then 1 else 0) := by
  have hne : l ≠ [] := by
    intro hnil; rw [hnil] at h; simp at h
  have hz : l.getLast hne = z := by
    have hl := List.getLast?_eq_getLast l hne
    rw [h] at hl
    exact (Option.some.inj hl).symm
  conv_lhs => rw [← List.dropLast_concat_getLast hne]
  rw [List.countP_append, hz]
  simp [List.countP_cons]

/-- Counting survives the swap-with-last-and-pop removal: removing the
record at a valid position `i` removes exactly one occurrence of the value
stored there, stated additively to avoid truncated subtraction. -/
theorem countP_swapPop {α : Type} (p : α → Bool) :
    ∀ (l : List α) (i : Nat) (x : α), l[i]? = some x →
      (MutableEdgeGraph.swapPop l i).countP p + (if p x then 1 else 0) =
        l.countP p := by
  intro l
  induction l with
  | nil => intro i x hx; simp at hx
  | cons a l ih =>
    intro i x hx
    match i with
    | 0 =>
      have hax : x = a := by
        have := hx
        simp only [List.getElem?_cons_zero] at this
        exact (Option.some.inj this).symm
      subst hax
      match l with
      | [] =>
        simp [MutableEdgeGraph.swapPop, List.countP_cons]
      | b :: l2 =>
        cases hz : (b :: l2).getLast? with
        | none => simp at hz
        | some z =>
          have hcons : (x :: b :: l2).getLast? = some z := by
            rw [List.getLast?_cons_cons]; exact hz
          have hdl : (MutableEdgeGraph.swapPop (x :: b :: l2) 0) =
              z :: (b :: l2).dropLast := by
            simp only [MutableEdgeGraph.swapPop, hcons, List.set_cons_zero,
              List.dropLast_cons₂]
          rw [hdl, List.countP_cons, List.countP_cons,
            countP_dropLast_getLast p (b :: l2) z hz]
    | Nat.succ i =>
      simp only [List.getElem?_cons_succ] at hx
      have hln : l ≠ [] := by
        intro hnil; rw [hnil] at hx; simp at hx
      cases hz : l.getLast? with
      | none => exact absurd (List.getLast?_eq_none_iff.mp hz) hln
      | some z =>
        have hcons : (a :: l).getLast? = some z := by
          match l, hln with
          | b :: l2, _ => rw [List.getLast?_cons_cons]; exact hz
        have hsetne : l.set i z ≠ [] := by
          intro hnil
          have hlen := congrArg List.length hnil
          rw [List.length_set] at hlen
          exact hln (List.eq_nil_of_length_eq_zero hlen)
        have hdl : (MutableEdgeGraph.swapPop (a :: l) (i + 1)) =
            a :: MutableEdgeGraph.swapPop l i := by
          simp only [MutableEdgeGraph.swapPop, hcons, hz, List.set_cons_succ]
          rw [List.dropLast_cons_of_ne_nil hsetne]
        have ihx := ih i x hx
        rw [hdl, List.countP_cons, List.countP_cons]
        omega

/-- Swap-with-last-and-pop on a nonempty vector shrinks it by exactly one
element. -/
theorem length_swapPop {α : Type} (l : List α) (i : Nat) (x : α)
    (h : l.getLast? = some x) :
    (MutableEdgeGraph.swapPop l i).length + 1 = l.length := by
  have hne : l ≠ [] := by
    intro hnil; rw [hnil] at h; simp at h
  have hpos : 0 < l.length := List.length_pos.mpr hne
  simp only [MutableEdgeGraph.swapPop, h]
  rw [List.length_dropLast, List.length_set]
  omega

/-- A list has no match exactly when its match count is zero. -/
theorem any_eq_false_iff_countP {α : Type} (p : α → Bool) (l : List α) :
    l.any p = false ↔ l.countP p = 0 := by
  rw [List.any_eq_false, List.countP_eq_zero]

namespace MutableEdgeGraph

/-- Evaluation of `removeSuccessorImpl` on a valid iterator whose mirrored
half is present: both the successor-side record and the first mirrored
predecessor record are removed by swap-with-last-and-pop, and the iterator
position is returned. -/
theorem removeSuccessorImpl_eq (g : MutableEdgeGraph) (n idx : Nat)
    (e : OwningEdge) (he : (g.succ n)[idx]? = some e)
    (hp : 0 < vCount (g.pred e.Neighbor) n) :
    removeSuccessorImpl g n idx =
      Except.ok
        ({ g with
            pred := Function.update g.pred e.Neighbor
              (swapPop (g.pred e.Neighbor)
                (List.findIdx (fun v => v.Neighbor == n) (g.pred e.Neighbor))),
            succ := Function.update g.succ n
              (swapPop (g.succ n) idx) }, idx) := by
  have hmem : e ∈ g.succ n := List.getElem?_mem he
  have hsne : (g.succ n).isEmpty = false :=
    List.isEmpty_eq_false.mpr (List.ne_nil_of_mem hmem)
  have hex : ∃ v ∈ g.pred e.Neighbor, (fun v => v.Neighbor == n) v :=
    List.countP_pos_iff.mp hp
  have hfind : List.findIdx (fun v => v.Neighbor == n) (g.pred e.Neighbor) <
      (g.pred e.Neighbor).length :=
    List.findIdx_lt_length.mpr hex
  have hpne : (g.pred e.Neighbor).isEmpty = false := by
    obtain ⟨v, hv, _⟩ := hex
    exact List.isEmpty_eq_false.mpr (List.ne_nil_of_mem hv)
  rw [removeSuccessorImpl, hsne, he]
  simp only [Bool.false_eq_true, if_false, hpne, if_neg (Nat.ne_of_lt hfind)]

/-- Evaluation of `removePredecessorImpl` on a valid iterator whose mirrored
half is present, symmetric to `removeSuccessorImpl_eq`. -/
theorem removePredecessorImpl_eq (g : MutableEdgeGraph) (n idx : Nat)
    (e : NonOwningEdge) (he : (g.pred n)[idx]? = some e)
    (hp : 0 < eCount (g.succ e.Neighbor) n) :
    removePredecessorImpl g n idx =
      Except.ok
        ({ g with
            succ := Function.update g.succ e.Neighbor
              (swapPop (g.succ e.Neighbor)
                (List.findIdx (fun v => v.Neighbor == n) (g.succ e.Neighbor))),
            pred := Function.update g.pred n
              (swapPop (g.pred n) idx) }, idx) := by
  have hmem : e ∈ g.pred n := List.getElem?_mem he
  have hsne : (g.pred n).isEmpty = false :=
    List.isEmpty_eq_false.mpr (List.ne_nil_of_mem hmem)
  have hex : ∃ v ∈ g.succ e.Neighbor, (fun v => v.Neighbor == n) v :=
    List.countP_pos_iff.mp hp
  have hfind : List.findIdx (fun v => v.Neighbor == n) (g.succ e.Neighbor) <
      (g.succ e.Neighbor).length :=
    List.findIdx_lt_length.mpr hex
  have hpne : (g.succ e.Neighbor).isEmpty = false := by
    obtain ⟨v, hv, _⟩ := hex
    exact List.isEmpty_eq_false.mpr (List.ne_nil_of_mem hv)
  rw [removePredecessorImpl, hsne, he]
  simp only [Bool.false_eq_true, if_false, hpne, if_neg (Nat.ne_of_lt hfind)]

end MutableEdgeGraph

namespace MutableEdgeGraph

/-- One round of the successor half of `disconnect()` under the
mirrored-half invariant: removing the front successor record succeeds,
removes exactly one record from this node's `Successors`, and preserves the
invariant and the node container. -/
theorem removeSuccStep (g : MutableEdgeGraph) (n : Nat) (e : OwningEdge)
    (hW : WF g) (he : (g.succ n)[0]? = some e) :
    ∃ g', removeSuccessorImpl g n 0 = Except.ok (g', 0) ∧ WF g' ∧
      (g'.succ n).length + 1 = (g.succ n).length ∧ g'.nodes = g.nodes := by
  have hmem : e ∈ g.succ n := List.getElem?_mem he
  have hcntS : 0 < eCount (g.succ n) e.Neighbor := by
    unfold eCount
    exact List.countP_pos_iff.mpr ⟨e, hmem, by simp⟩
  have hcntP : 0 < vCount (g.pred e.Neighbor) n := by
    rw [← hW n e.Neighbor]; exact hcntS
  have heq := removeSuccessorImpl_eq g n 0 e he hcntP
  have hexP : ∃ w ∈ g.pred e.Neighbor, (fun v => v.Neighbor == n) w := by
    have hc := hcntP
    unfold vCount at hc
    exact List.countP_pos_iff.mp hc
  have hjlt : List.findIdx (fun v => v.Neighbor == n) (g.pred e.Neighbor) <
      (g.pred e.Neighbor).length := List.findIdx_lt_length.mpr hexP
  obtain ⟨v, hvj, hvn⟩ : ∃ v,
      (g.pred e.Neighbor)[List.findIdx (fun v => v.Neighbor == n)
        (g.pred e.Neighbor)]? = some v ∧ v.Neighbor = n := by
    refine ⟨_, List.getElem?_eq_getElem hjlt, ?_⟩
    have hp := List.findIdx_getElem (w := hjlt)
    simpa using hp
  refine ⟨_, heq, ?_, ?_, rfl⟩
  · unfold WF
    intro x y
    show eCount (Function.update g.succ n (swapPop (g.succ n) 0) x) y =
      vCount (Function.update g.pred e.Neighbor
        (swapPop (g.pred e.Neighbor)
          (List.findIdx (fun v => v.Neighbor == n) (g.pred e.Neighbor))) y) x
    by_cases hx : x = n
    · subst hx
      rw [Function.update_same]
      by_cases hy : y = e.Neighbor
      · subst hy
        rw [Function.update_same]
        have h1 := countP_swapPop
          (fun t : OwningEdge => t.Neighbor == e.Neighbor) (g.succ x) 0 e he
        have h2 := countP_swapPop
          (fun t : NonOwningEdge => t.Neighbor == x) (g.pred e.Neighbor) _ v hvj
        have h3 := hW x e.Neighbor
        simp only [hvn, beq_self_eq_true, if_true] at h1 h2
        unfold eCount vCount at h3 ⊢
        omega
      · rw [Function.update_noteq hy]
        have h1 := countP_swapPop
          (fun t : OwningEdge => t.Neighbor == y) (g.succ x) 0 e he
        have hne : (e.Neighbor == y) = false :=
          beq_eq_false_iff_ne.mpr (fun hh => hy hh.symm)
        simp only [hne, Bool.false_eq_true, if_false] at h1
        have h3 := hW x y
        unfold eCount vCount at h3 ⊢
        omega
    · rw [Function.update_noteq hx]
      by_cases hy : y = e.Neighbor
      · subst hy
        rw [Function.update_same]
        have h2 := countP_swapPop
          (fun t : NonOwningEdge => t.Neighbor == x) (g.pred e.Neighbor) _ v hvj
        have hne : (v.Neighbor == x) = false := by
          rw [hvn]
          exact beq_eq_false_iff_ne.mpr (fun hh => hx hh.symm)
        simp only [hne, Bool.false_eq_true, if_false] at h2
        have h3 := hW x e.Neighbor
        unfold eCount vCount at h3 ⊢
        omega
      · rw [Function.update_noteq hy]
        exact hW x y
  · show (Function.update g.succ n (swapPop (g.succ n) 0) n).length + 1 =
      (g.succ n).length
    rw [Function.update_same]
    obtain ⟨z, hz⟩ : ∃ z, (g.succ n).getLast? = some z := by
      cases hzz : (g.succ n).getLast? with
      | none =>
        exact absurd (List.getLast?_eq_none_iff.mp hzz)
          (List.ne_nil_of_mem hmem)
      | some z => exact ⟨z, rfl⟩
    exact length_swapPop _ 0 z hz

end MutableEdgeGraph

namespace MutableEdgeGraph

/-- One round of the predecessor half of `disconnect()` under the
mirrored-half invariant, after the successor half has emptied this node's
`Successors`: removing the front predecessor record succeeds, removes
exactly one record, preserves the invariant and the node container, and
leaves this node's `Successors` empty. -/
theorem removePredStep (g : MutableEdgeGraph) (n : Nat) (e : NonOwningEdge)
    (hW : WF g) (he : (g.pred n)[0]? = some e) (hs : g.succ n = []) :
    ∃ g', removePredecessorImpl g n 0 = Except.ok (g', 0) ∧ WF g' ∧
      (g'.pred n).length + 1 = (g.pred n).length ∧ g'.nodes = g.nodes ∧
      g'.succ n = [] := by
  have hmem : e ∈ g.pred n := List.getElem?_mem he
  have hcntP : 0 < vCount (g.pred n) e.Neighbor := by
    unfold vCount
    exact List.countP_pos_iff.mpr ⟨e, hmem, by simp⟩
  have hcntS : 0 < eCount (g.succ e.Neighbor) n := by
    rw [hW e.Neighbor n]; exact hcntP
  have hpn : e.Neighbor ≠ n := by
    intro hh
    rw [hh, hs] at hcntS
    simp [eCount] at hcntS
  have heq := removePredecessorImpl_eq g n 0 e he hcntS
  have hexS : ∃ w ∈ g.succ e.Neighbor, (fun v => v.Neighbor == n) w := by
    have hc := hcntS
    unfold eCount at hc
    exact List.countP_pos_iff.mp hc
  have hjlt : List.findIdx (fun v => v.Neighbor == n) (g.succ e.Neighbor) <
      (g.succ e.Neighbor).length := List.findIdx_lt_length.mpr hexS
  obtain ⟨v, hvj, hvn⟩ : ∃ v,
      (g.succ e.Neighbor)[List.findIdx (fun v => v.Neighbor == n)
        (g.succ e.Neighbor)]? = some v ∧ v.Neighbor = n := by
    refine ⟨_, List.getElem?_eq_getElem hjlt, ?_⟩
    have hp := List.findIdx_getElem (w := hjlt)
    simpa using hp
  refine ⟨_, heq, ?_, ?_, rfl, ?_⟩
  · unfold WF
    intro x y
    show eCount (Function.update g.succ e.Neighbor
        (swapPop (g.succ e.Neighbor)
          (List.findIdx (fun v => v.Neighbor == n) (g.succ e.Neighbor))) x) y =
      vCount (Function.update g.pred n (swapPop (g.pred n) 0) y) x
    by_cases hx : x = e.Neighbor
    · subst hx
      rw [Function.update_same]
      by_cases hy : y = n
      · subst hy
        rw [Function.update_same]
        have h1 := countP_swapPop
          (fun t : OwningEdge => t.Neighbor == y) (g.succ e.Neighbor) _ v hvj
        have h2 := countP_swapPop
          (fun t : NonOwningEdge => t.Neighbor == e.Neighbor) (g.pred y) 0 e he
        have h3 := hW e.Neighbor y
        simp only [hvn, beq_self_eq_true, if_true] at h1 h2
        unfold eCount vCount at h3 ⊢
        omega
      · rw [Function.update_noteq hy]
        have h1 := countP_swapPop
          (fun t : OwningEdge => t.Neighbor == y) (g.succ e.Neighbor) _ v hvj
        have hne : (v.Neighbor == y) = false := by
          rw [hvn]
          exact beq_eq_false_iff_ne.mpr (fun hh => hy hh.symm)
        simp only [hne, Bool.false_eq_true, if_false] at h1
        have h3 := hW e.Neighbor y
        unfold eCount vCount at h3 ⊢
        omega
    · rw [Function.update_noteq hx]
      by_cases hy : y = n
      · subst hy
        rw [Function.update_same]
        have h2 := countP_swapPop
          (fun t : NonOwningEdge => t.Neighbor == x) (g.pred y) 0 e he
        have hne : (e.Neighbor == x) = false :=
          beq_eq_false_iff_ne.mpr (fun hh => hx hh.symm)
        simp only [hne, Bool.false_eq_true, if_false] at h2
        have h3 := hW x y
        unfold eCount vCount at h3 ⊢
        omega
      · rw [Function.update_noteq hy]
        exact hW x y
  · show (Function.update g.pred n (swapPop (g.pred n) 0) n).length + 1 =
      (g.pred n).length
    rw [Function.update_same]
    obtain ⟨z, hz⟩ : ∃ z, (g.pred n).getLast? = some z := by
      cases hzz : (g.pred n).getLast? with
      | none =>
        exact absurd (List.getLast?_eq_none_iff.mp hzz)
          (List.ne_nil_of_mem hmem)
      | some z => exact ⟨z, rfl⟩
    exact length_swapPop _ 0 z hz
  · show Function.update g.succ e.Neighbor
      (swapPop (g.succ e.Neighbor)
        (List.findIdx (fun v => v.Neighbor == n) (g.succ e.Neighbor))) n = []
    rw [Function.update_noteq (Ne.symm hpn)]
    exact hs

end MutableEdgeGraph

namespace MutableEdgeGraph

/-- The successor half of `disconnect()` terminates under the mirrored-half
invariant with fuel at least `Successors.size()`, empties this node's
`Successors`, and preserves the invariant and the node container. -/
theorem disconnectSuccLoop_ok :
    ∀ (fuel : Nat) (g : MutableEdgeGraph) (n : Nat), WF g →
      (g.succ n).length ≤ fuel →
      ∃ g', disconnectSuccLoop fuel g n = Except.ok g' ∧
        g'.succ n = [] ∧ WF g' ∧ g'.nodes = g.nodes := by
  intro fuel
  induction fuel with
  | zero =>
    intro g n hW hlen
    have hnil : g.succ n = [] :=
      List.eq_nil_of_length_eq_zero (Nat.le_zero.mp hlen)
    refine ⟨g, ?_, hnil, hW, rfl⟩
    rw [disconnectSuccLoop]
    simp [hnil]
  | succ f ih =>
    intro g n hW hlen
    by_cases hemp : (g.succ n).isEmpty
    · have hnil : g.succ n = [] := by simpa using hemp
      refine ⟨g, ?_, hnil, hW, rfl⟩
      rw [disconnectSuccLoop]
      simp [hnil]
    · have hne : g.succ n ≠ [] := by simpa using hemp
      have hpos : 0 < (g.succ n).length := List.length_pos.mpr hne
      obtain ⟨g2, heq, hW2, hlen2, hnodes2⟩ :=
        removeSuccStep g n ((g.succ n).get ⟨0, hpos⟩) hW
          (List.getElem?_eq_getElem hpos)
      have hle2 : (g2.succ n).length ≤ f := by omega
      obtain ⟨g', hloop, hnil', hW', hnodes'⟩ := ih g2 n hW2 hle2
      refine ⟨g', ?_, hnil', hW', hnodes'.trans hnodes2⟩
      rw [disconnectSuccLoop, if_neg hemp]
      simp only [heq]
      exact hloop

/-- The predecessor half of `disconnect()` terminates under the
mirrored-half invariant once `Successors` is empty, empties this node's
`Predecessors`, keeps `Successors` empty, and preserves the invariant and
the node container. -/
theorem disconnectPredLoop_ok :
    ∀ (fuel : Nat) (g : MutableEdgeGraph) (n : Nat), WF g → g.succ n = [] →
      (g.pred n).length ≤ fuel →
      ∃ g', disconnectPredLoop fuel g n = Except.ok g' ∧
        g'.pred n = [] ∧ g'.succ n = [] ∧ WF g' ∧ g'.nodes = g.nodes := by
  intro fuel
  induction fuel with
  | zero =>
    intro g n hW hs hlen
    have hnil : g.pred n = [] :=
      List.eq_nil_of_length_eq_zero (Nat.le_zero.mp hlen)
    refine ⟨g, ?_, hnil, hs, hW, rfl⟩
    rw [disconnectPredLoop]
    simp [hnil]
  | succ f ih =>
    intro g n hW hs hlen
    by_cases hemp : (g.pred n).isEmpty
    · have hnil : g.pred n = [] := by simpa using hemp
      refine ⟨g, ?_, hnil, hs, hW, rfl⟩
      rw [disconnectPredLoop]
      simp [hnil]
    · have hne : g.pred n ≠ [] := by simpa using hemp
      have hpos : 0 < (g.pred n).length := List.length_pos.mpr hne
      obtain ⟨g2, heq, hW2, hlen2, hnodes2, hs2⟩ :=
        removePredStep g n ((g.pred n).get ⟨0, hpos⟩) hW
          (List.getElem?_eq_getElem hpos) hs
      have hle2 : (g2.pred n).length ≤ f := by omega
      obtain ⟨g', hloop, hnil', hs', hW', hnodes'⟩ := ih g2 n hW2 hs2 hle2
      refine ⟨g', ?_, hnil', hs', hW', hnodes'.trans hnodes2⟩
      rw [disconnectPredLoop, if_neg hemp]
      simp only [heq]
      exact hloop

end MutableEdgeGraph

/-- C1: for MutableEdgeNode, for distinct nodes A and B and label L, after
`A.addSuccessor(B, L)` succeeds, `A.hasSuccessor(B)` is true,
`B.hasPredecessor(A)` is true, and the label reached through A's owning
successor record and through B's non-owning predecessor record is the same
single allocation: both freshly appended records carry the identical
allocation id `g.fresh` (pointer identity, not merely value equality). -/
theorem mutable_addSuccessor_mirrors (g : MutableEdgeGraph) (a b el : Nat)
    (_hab : a ≠ b) (h : MutableEdgeGraph.hasSuccessor g a b = false) :
    ∃ g' view,
      MutableEdgeGraph.addSuccessor g a b el = Except.ok (g', view) ∧
      MutableEdgeGraph.hasSuccessor g' a b = true ∧
      MutableEdgeGraph.hasPredecessor g' b a = true ∧
      (g'.succ a).getLast? = some { Neighbor := b, Label := g.fresh } ∧
      (g'.pred b).getLast? = some { Neighbor := a, Label := g.fresh } ∧
      view = g.fresh := by
  have hif : ¬ (MutableEdgeGraph.hasSuccessor g a b = true) := by
    rw [h]; simp
  refine ⟨{ g with
      succ := Function.update g.succ a
        (g.succ a ++ [{ Neighbor := b, Label := g.fresh }]),
      pred := Function.update g.pred b
        (g.pred b ++ [{ Neighbor := a, Label := g.fresh }]),
      heap := Function.update g.heap g.fresh el,
      fresh := g.fresh + 1 }, g.fresh, ?_, ?_, ?_, ?_, ?_, rfl⟩
  · rw [MutableEdgeGraph.addSuccessor, if_neg hif]
  · simp [MutableEdgeGraph.hasSuccessor, Function.update_same]
  · simp [MutableEdgeGraph.hasPredecessor, Function.update_same]
  · simp [Function.update_same, List.getLast?_concat]
  · simp [Function.update_same, List.getLast?_concat]

/-- Witness for C1 at a fresh two-node graph: adding the edge `0 -> 1` with
label 7 succeeds and mirrors as claimed. -/
theorem mutable_addSuccessor_mirrors_witness :
    ∃ g' view,
      MutableEdgeGraph.addSuccessor emptyMG 0 1 7 = Except.ok (g', view) ∧
      MutableEdgeGraph.hasSuccessor g' 0 1 = true ∧
      MutableEdgeGraph.hasPredecessor g' 1 0 = true ∧
      (g'.succ 0).getLast? = some { Neighbor := 1, Label := emptyMG.fresh } ∧
      (g'.pred 1).getLast? = some { Neighbor := 0, Label := emptyMG.fresh } ∧
      view = emptyMG.fresh :=
  mutable_addSuccessor_mirrors emptyMG 0 1 7 (by decide) (by rfl)

/-- C3: for MutableEdgeNode, when an edge `A -> B` already exists, a second
`A.addSuccessor(B, L2)` fails the duplicate-edge `revng_assert` and aborts
fatally; the assertion runs before any mutation, so the abort carries the
graph exactly in its pre-call state (no partial insertion on either
endpoint). -/
theorem mutable_addSuccessor_duplicate_aborts (g : MutableEdgeGraph)
    (a b el : Nat) (h : MutableEdgeGraph.hasSuccessor g a b = true) :
    MutableEdgeGraph.addSuccessor g a b el = Except.error g := by
  rw [MutableEdgeGraph.addSuccessor, if_pos h]

/-- Witness for C3 on the two-node graph that already holds `0 -> 1`. -/
theorem mutable_addSuccessor_duplicate_aborts_witness :
    MutableEdgeGraph.addSuccessor mgPair 0 1 9 = Except.error mgPair :=
  mutable_addSuccessor_duplicate_aborts mgPair 0 1 9 (by rfl)

/-- C9 (implicit): for MutableEdgeNode, `removeSuccessorImpl` on a node with
an empty successor vector (reached by every `removeSuccessor` overload,
which all funnel into it) and `removePredecessorImpl` on a node with an
empty predecessor vector return the respective end iterator (position 0 of
the empty vector) without aborting and leave every node untouched: the
returned graph is the input graph itself. -/
theorem mutable_remove_on_empty_noop (g : MutableEdgeGraph) (a b i j : Nat)
    (hs : g.succ a = []) (hp : g.pred b = []) :
    MutableEdgeGraph.removeSuccessorImpl g a i = Except.ok (g, 0) ∧
    MutableEdgeGraph.removePredecessorImpl g b j = Except.ok (g, 0) := by
  constructor
  · rw [MutableEdgeGraph.removeSuccessorImpl]
    simp [hs]
  · rw [MutableEdgeGraph.removePredecessorImpl]
    simp [hp]

/-- Witness for C9 on the fresh graph, whose node 0 has no edges at all. -/
theorem mutable_remove_on_empty_noop_witness :
    MutableEdgeGraph.removeSuccessorImpl emptyMG 0 5 = Except.ok (emptyMG, 0) ∧
    MutableEdgeGraph.removePredecessorImpl emptyMG 0 5 =
      Except.ok (emptyMG, 0) :=
  mutable_remove_on_empty_noop emptyMG 0 0 5 5 rfl rfl

/-- C10 (implicit): a freshly constructed graph with an entry node holder
has `getEntryNode() == nullptr`, and after `setEntryNode(P)` the getter
returns exactly `P` while every other component of the graph state (owned
nodes, all edge vectors, the label heap, both id counters, the parent
back-references) is unchanged. -/
theorem entry_node_get_set :
    MutableEdgeGraph.getEntryNode emptyMG = none ∧
    ∀ (g : MutableEdgeGraph) (p : Option Nat),
      MutableEdgeGraph.getEntryNode (MutableEdgeGraph.setEntryNode g p) = p ∧
      (MutableEdgeGraph.setEntryNode g p).nodes = g.nodes ∧
      (MutableEdgeGraph.setEntryNode g p).succ = g.succ ∧
      (MutableEdgeGraph.setEntryNode g p).pred = g.pred ∧
      (MutableEdgeGraph.setEntryNode g p).heap = g.heap ∧
      (MutableEdgeGraph.setEntryNode g p).fresh = g.fresh ∧
      (MutableEdgeGraph.setEntryNode g p).nodeFresh = g.nodeFresh ∧
      (MutableEdgeGraph.setEntryNode g p).parentSet = g.parentSet :=
  ⟨rfl, fun _ _ => ⟨rfl, rfl, rfl, rfl, rfl, rfl, rfl, rfl⟩⟩

/-- C6: for BidirectionalNode, `removeSuccessor` erases exactly the record
at the iterator position from the invoked node's own successor vector and
`removePredecessor` from its own predecessor vector; the mirrored record on
the far endpoint is left unchanged (every predecessor vector after
`removeSuccessor`, every successor vector after `removePredecessor`), and
no other node's vector of either kind is modified. -/
theorem bidirectional_remove_one_sided (g : BidirectionalGraph)
    (a b i j : Nat) :
    ((BidirectionalGraph.removeSuccessor g a i).succ a =
      (g.succ a).eraseIdx i) ∧
    (∀ m, (BidirectionalGraph.removeSuccessor g a i).pred m = g.pred m) ∧
    (∀ m, m ≠ a →
      (BidirectionalGraph.removeSuccessor g a i).succ m = g.succ m) ∧
    ((BidirectionalGraph.removePredecessor g b j).pred b =
      (g.pred b).eraseIdx j) ∧
    (∀ m, (BidirectionalGraph.removePredecessor g b j).succ m = g.succ m) ∧
    (∀ m, m ≠ b →
      (BidirectionalGraph.removePredecessor g b j).pred m = g.pred m) := by
  refine ⟨?_, fun m => rfl, fun m hm => ?_, ?_, fun m => rfl, fun m hm => ?_⟩
  · exact Function.update_same a ((g.succ a).eraseIdx i) g.succ
  · exact Function.update_noteq hm ((g.succ a).eraseIdx i) g.succ
  · exact Function.update_same b ((g.pred b).eraseIdx j) g.pred
  · exact Function.update_noteq hm ((g.pred b).eraseIdx j) g.pred

/-- Witness for C6 on the one-edge bidirectional graph `0 -> 1`: removing
the successor record of node 0 leaves node 1's predecessor vector and node
2's successor vector untouched. -/
theorem bidirectional_remove_one_sided_witness :
    (BidirectionalGraph.removeSuccessor bgPair 0 0).pred 1 = bgPair.pred 1 ∧
    (BidirectionalGraph.removeSuccessor bgPair 0 0).succ 2 = bgPair.succ 2 :=
  ⟨(bidirectional_remove_one_sided bgPair 0 1 0 0).2.1 1,
   (bidirectional_remove_one_sided bgPair 0 1 0 0).2.2.1 2 (by decide)⟩

/-- C2 (code bug): evaluating `B.addPredecessor(A, EL)` of BidirectionalNode
on fresh nodes `A = 0`, `B = 1`, `EL = 7`: the direct
`Predecessors.emplace_back(NewPredecessor, EL)` and the mirrored insert
performed inside the subsequent `NewPredecessor->addSuccessor(this, EL)`
together append TWO predecessor records referencing A to B's predecessor
vector, while exactly one successor record is appended to A, so successor
records and predecessor records are not in one-to-one correspondence. -/
theorem bidirectional_addPredecessor_double_insert :
    (BidirectionalGraph.addPredecessor emptyBG 1 0 7).pred 1 =
      [{ Neighbor := 0, Label := 7 }, { Neighbor := 0, Label := 7 }] ∧
    (BidirectionalGraph.addPredecessor emptyBG 1 0 7).succ 0 =
      [{ Neighbor := 1, Label := 7 }] := by
  constructor <;> rfl

/-- C5 counterexample: node 0 holds a successor record for node 1 whose
mirrored half is missing because node 1's predecessor vector is EMPTY;
`A.removeSuccessor(B)` hits the early
`if (Successor->Predecessors.empty()) return Iterator;` and returns
normally — no fatal abort, and not even the successor-side record is
removed — contradicting the claim that a missing mirrored half always
aborts. -/
theorem mutable_remove_missing_half_returns_normally :
    MutableEdgeGraph.eCount (brokenEmptyHalf.succ 0) 1 = 1 ∧
    MutableEdgeGraph.vCount (brokenEmptyHalf.pred 1) 0 = 0 ∧
    MutableEdgeGraph.removeSuccessor brokenEmptyHalf 0 1 =
      Except.ok (brokenEmptyHalf, 0) :=
  ⟨rfl, rfl, rfl⟩

/-- C5 (amended): for MutableEdgeNode, removing a successor record whose
target's predecessor vector is NON-EMPTY but contains no mirrored record
referencing this node fails the `revng_assert` ("Half of an edge is
missing, graph layout is broken.") and aborts fatally before any mutation
(the abort carries the pre-call state); symmetrically for
`removePredecessor`.  (When the far-side vector is empty the code instead
returns normally without removing anything.) -/
theorem mutable_remove_missing_half_aborts (g : MutableEdgeGraph)
    (a b i : Nat) :
    (∀ e : OwningEdge, (g.succ a)[i]? = some e →
      g.pred e.Neighbor ≠ [] →
      MutableEdgeGraph.vCount (g.pred e.Neighbor) a = 0 →
      MutableEdgeGraph.removeSuccessorImpl g a i = Except.error g) ∧
    (∀ e : NonOwningEdge, (g.pred b)[i]? = some e →
      g.succ e.Neighbor ≠ [] →
      MutableEdgeGraph.eCount (g.succ e.Neighbor) b = 0 →
      MutableEdgeGraph.removePredecessorImpl g b i = Except.error g) := by
  constructor
  · intro e he hne hc
    have hsne : (g.succ a).isEmpty = false :=
      List.isEmpty_eq_false.mpr (List.ne_nil_of_mem (List.getElem?_mem he))
    have hpne : (g.pred e.Neighbor).isEmpty = false :=
      List.isEmpty_eq_false.mpr hne
    have hfind : List.findIdx (fun v => v.Neighbor == a)
        (g.pred e.Neighbor) = (g.pred e.Neighbor).length := by
      apply List.findIdx_eq_length_of_false
      intro x hx
      have hz := hc
      unfold MutableEdgeGraph.vCount at hz
      have := List.countP_eq_zero.mp hz x hx
      simpa using this
    rw [MutableEdgeGraph.removeSuccessorImpl, hsne, he]
    simp only [Bool.false_eq_true, if_false, hpne, if_pos hfind]
  · intro e he hne hc
    have hsne : (g.pred b).isEmpty = false :=
      List.isEmpty_eq_false.mpr (List.ne_nil_of_mem (List.getElem?_mem he))
    have hpne : (g.succ e.Neighbor).isEmpty = false :=
      List.isEmpty_eq_false.mpr hne
    have hfind : List.findIdx (fun v => v.Neighbor == b)
        (g.succ e.Neighbor) = (g.succ e.Neighbor).length := by
      apply List.findIdx_eq_length_of_false
      intro x hx
      have hz := hc
      unfold MutableEdgeGraph.eCount at hz
      have := List.countP_eq_zero.mp hz x hx
      simpa using this
    rw [MutableEdgeGraph.removePredecessorImpl, hsne, he]
    simp only [Bool.false_eq_true, if_false, hpne, if_pos hfind]

/-- Witness for the amended C5 on the two broken graphs with stray far-side
records: both removal directions abort with the pre-call state. -/
theorem mutable_remove_missing_half_aborts_witness :
    MutableEdgeGraph.removeSuccessorImpl brokenStrayPred 0 0 =
      Except.error brokenStrayPred ∧
    MutableEdgeGraph.removePredecessorImpl brokenStraySucc 1 0 =
      Except.error brokenStraySucc :=
  ⟨(mutable_remove_missing_half_aborts brokenStrayPred 0 0 0).1
      { Neighbor := 1, Label := 0 } (by rfl) (by decide) (by rfl),
   (mutable_remove_missing_half_aborts brokenStraySucc 0 1 0).2
      { Neighbor := 0, Label := 1 } (by rfl) (by decide) (by rfl)⟩

/-- C4: for MutableEdgeNode, when the edge `A -> B` exists with both halves
present (exactly one successor record of A referencing B and exactly one
mirrored predecessor record of B referencing A, as the duplicate-edge
invariant guarantees for edges built by `addSuccessor`), after
`A.removeSuccessor(B)` both halves are gone: `A.hasSuccessor(B)` and
`B.hasPredecessor(A)` are false — the mirrored far-side record is located
and removed in the same operation. -/
theorem mutable_removeSuccessor_symmetry (g : MutableEdgeGraph) (a b : Nat)
    (h1 : MutableEdgeGraph.eCount (g.succ a) b = 1)
    (h2 : MutableEdgeGraph.vCount (g.pred b) a = 1) :
    ∃ g' i, MutableEdgeGraph.removeSuccessor g a b = Except.ok (g', i) ∧
      MutableEdgeGraph.hasSuccessor g' a b = false ∧
      MutableEdgeGraph.hasPredecessor g' b a = false := by
  have hexS : ∃ w ∈ g.succ a, (fun e : OwningEdge => e.Neighbor == b) w := by
    have hc : 0 < List.countP
        (fun e : OwningEdge => e.Neighbor == b) (g.succ a) := by
      unfold MutableEdgeGraph.eCount at h1; omega
    exact List.countP_pos_iff.mp hc
  have hilt : List.findIdx (fun e : OwningEdge => e.Neighbor == b)
      (g.succ a) < (g.succ a).length := List.findIdx_lt_length.mpr hexS
  obtain ⟨e, hei, hen⟩ : ∃ e,
      (g.succ a)[List.findIdx (fun e : OwningEdge => e.Neighbor == b)
        (g.succ a)]? = some e ∧ e.Neighbor = b := by
    refine ⟨_, List.getElem?_eq_getElem hilt, ?_⟩
    have hp := List.findIdx_getElem (w := hilt)
    simpa using hp
  have hposP : 0 < MutableEdgeGraph.vCount (g.pred e.Neighbor) a := by
    rw [hen]; omega
  have heq := MutableEdgeGraph.removeSuccessorImpl_eq g a _ e hei hposP
  have hexP : ∃ w ∈ g.pred e.Neighbor,
      (fun v : NonOwningEdge => v.Neighbor == a) w := by
    have hc := hposP
    unfold MutableEdgeGraph.vCount at hc
    exact List.countP_pos_iff.mp hc
  have hjlt : List.findIdx (fun v : NonOwningEdge => v.Neighbor == a)
      (g.pred e.Neighbor) < (g.pred e.Neighbor).length :=
    List.findIdx_lt_length.mpr hexP
  obtain ⟨v, hvj, hvn⟩ : ∃ v,
      (g.pred e.Neighbor)[List.findIdx
        (fun v : NonOwningEdge => v.Neighbor == a)
        (g.pred e.Neighbor)]? = some v ∧ v.Neighbor = a := by
    refine ⟨_, List.getElem?_eq_getElem hjlt, ?_⟩
    have hp := List.findIdx_getElem (w := hjlt)
    simpa using hp
  refine ⟨_, _, heq, ?_, ?_⟩
  · unfold MutableEdgeGraph.hasSuccessor
    show List.any (Function.update g.succ a
        (MutableEdgeGraph.swapPop (g.succ a)
          (List.findIdx (fun e : OwningEdge => e.Neighbor == b)
            (g.succ a))) a)
      (fun e => e.Neighbor == b) = false
    rw [Function.update_same, any_eq_false_iff_countP]
    have hc := countP_swapPop
      (fun t : OwningEdge => t.Neighbor == b) (g.succ a) _ e hei
    simp only [hen, beq_self_eq_true, if_true] at hc
    unfold MutableEdgeGraph.eCount at h1
    omega
  · unfold MutableEdgeGraph.hasPredecessor
    show List.any (Function.update g.pred e.Neighbor
        (MutableEdgeGraph.swapPop (g.pred e.Neighbor)
          (List.findIdx (fun v : NonOwningEdge => v.Neighbor == a)
            (g.pred e.Neighbor))) b)
      (fun e => e.Neighbor == a) = false
    have hc := countP_swapPop
      (fun t : NonOwningEdge => t.Neighbor == a) (g.pred e.Neighbor) _ v hvj
    rw [hen] at hc
    rw [hen, Function.update_same, any_eq_false_iff_countP]
    simp only [hvn, beq_self_eq_true, if_true] at hc
    unfold MutableEdgeGraph.vCount at h2
    omega

/-- Witness for C4 on the two-node graph holding the mirrored edge
`0 -> 1`. -/
theorem mutable_removeSuccessor_symmetry_witness :
    ∃ g' i, MutableEdgeGraph.removeSuccessor mgPair 0 1 = Except.ok (g', i) ∧
      MutableEdgeGraph.hasSuccessor g' 0 1 = false ∧
      MutableEdgeGraph.hasPredecessor g' 1 0 = false :=
  mutable_removeSuccessor_symmetry mgPair 0 1 (by rfl) (by rfl)

/-- The two-node one-edge graph `mgPair` satisfies the mirrored-half
invariant. -/
theorem WF_mgPair : MutableEdgeGraph.WF mgPair := by
  unfold MutableEdgeGraph.WF
  intro a b
  show MutableEdgeGraph.eCount
      (Function.update (fun _ => []) 0 [{ Neighbor := 1, Label := 0 }] a) b =
    MutableEdgeGraph.vCount
      (Function.update (fun _ => []) 1 [{ Neighbor := 0, Label := 0 }] b) a
  unfold MutableEdgeGraph.eCount MutableEdgeGraph.vCount
  by_cases ha : a = 0
  · subst ha
    rw [Function.update_same]
    by_cases hb : b = 1
    · subst hb
      rw [Function.update_same]
      decide
    · rw [Function.update_noteq hb]
      have h1 : ((1 : Nat) == b) = false :=
        beq_eq_false_iff_ne.mpr (fun hh => hb hh.symm)
      simp [List.countP_cons, h1]
  · rw [Function.update_noteq ha]
    by_cases hb : b = 1
    · subst hb
      rw [Function.update_same]
      have h0 : ((0 : Nat) == a) = false :=
        beq_eq_false_iff_ne.mpr (fun hh => ha hh.symm)
      simp [List.countP_cons, h0]
    · rw [Function.update_noteq hb]
      rfl

/-- C7: for MutableEdgeNode, on a graph satisfying the mirrored-half
invariant, `N.disconnect()` returns normally; afterwards
`N.hasSuccessors()` and `N.hasPredecessors()` are false, no node holds a
successor or predecessor record referencing N, and the owned node
collection is untouched (N stays in its container). -/
theorem mutable_disconnect_complete (g : MutableEdgeGraph) (n : Nat)
    (hW : MutableEdgeGraph.WF g) :
    ∃ g', MutableEdgeGraph.disconnect g n = Except.ok g' ∧
      MutableEdgeGraph.hasSuccessors g' n = false ∧
      MutableEdgeGraph.hasPredecessors g' n = false ∧
      (∀ m, m ≠ n → MutableEdgeGraph.eCount (g'.succ m) n = 0 ∧
        MutableEdgeGraph.vCount (g'.pred m) n = 0) ∧
      g'.nodes = g.nodes := by
  obtain ⟨g2, hl1, hs2, hW2, hn2⟩ :=
    MutableEdgeGraph.disconnectSuccLoop_ok (g.succ n).length g n hW le_rfl
  obtain ⟨gf, hl2, hpf, hsf, hWf, hnf⟩ :=
    MutableEdgeGraph.disconnectPredLoop_ok (g2.pred n).length g2 n hW2 hs2
      le_rfl
  refine ⟨gf, ?_, ?_, ?_, ?_, hnf.trans hn2⟩
  · rw [MutableEdgeGraph.disconnect]
    simp only [hl1]
    exact hl2
  · simp [MutableEdgeGraph.hasSuccessors, hsf]
  · simp [MutableEdgeGraph.hasPredecessors, hpf]
  · intro m hm
    constructor
    · have h4 := hWf m n
      rw [hpf] at h4
      unfold MutableEdgeGraph.vCount at h4
      simpa using h4
    · have h5 := hWf n m
      rw [hsf] at h5
      unfold MutableEdgeGraph.eCount at h5
      simp at h5
      omega

/-- Witness for C7 on the well-mirrored two-node graph: disconnecting node 0
returns normally with the claimed post-state. -/
theorem mutable_disconnect_complete_witness :
    ∃ g', MutableEdgeGraph.disconnect mgPair 0 = Except.ok g' ∧
      MutableEdgeGraph.hasSuccessors g' 0 = false ∧
      MutableEdgeGraph.hasPredecessors g' 0 = false ∧
      (∀ m, m ≠ 0 → MutableEdgeGraph.eCount (g'.succ m) 0 = 0 ∧
        MutableEdgeGraph.vCount (g'.pred m) 0 = 0) ∧
      g'.nodes = mgPair.nodes :=
  mutable_disconnect_complete mgPair 0 WF_mgPair

/-- C8: in the three-node scenario `{A, B, C} = {0, 1, 2}` after
`A.addSuccessor(B)` and `B.addSuccessor(C)` (both succeed), the counts are
`A.successorCount() == 1`, `B.predecessorCount() == 1`,
`C.predecessorCount() == 1`; `removeNode(B)` (which runs `disconnect()` on
B first) succeeds and afterwards `A.successorCount() == 0` and
`C.predecessorCount() == 0`, with only nodes A and C left in the
container. -/
theorem graph_scenario_remove_node :
    edgeOpOk scenarioAdd1 = true ∧ edgeOpOk scenarioAdd2 = true ∧
    MutableEdgeGraph.successorCount scenarioEdges 0 = 1 ∧
    MutableEdgeGraph.predecessorCount scenarioEdges 1 = 1 ∧
    MutableEdgeGraph.predecessorCount scenarioEdges 2 = 1 ∧
    graphOpOk scenarioRemove = true ∧
    MutableEdgeGraph.successorCount scenarioFinal 0 = 0 ∧
    MutableEdgeGraph.predecessorCount scenarioFinal 2 = 0 ∧
    scenarioFinal.nodes = [0, 2] := by
  decide
